import Mathlib

/-!
Verification of the RetainAI frontend against its specification.

Shallow embedding of the claim-relevant parts of the repository:
  * `public/service-worker.js` (install / activate / fetch handlers),
  * `src/lib/api.js` (`request`),
  * `src/components/NotificationsCenter.js` (`normalize`, SSE/polling effect,
    `markAsRead`),
  * `src/components/Notifications.jsx` (`markAsRead`),
  * `src/components/LeadDrawer.jsx` (`persistReminders`),
  * `src/components/GoogleCalendarApi.js` (`jfetch`),
  * `src/components/TokenGenerator.jsx` (`handleExchange`).

Browser effects (fetch, caches, timers, React state setters) are made explicit:
a network call becomes an `Except` outcome parameter, React state becomes a
value threaded through the function, and timers become an explicit state
machine. JavaScript `a || b` on strings (where `""`, `null` and `undefined`
are falsy) is modelled by `jsOr`; `a ?? b` by `Option.orElse`/`getD`.
-/

namespace RetainAI

/-- JavaScript `a || b` for an optional string value: `null`/`undefined`
(`none`) and the empty string are falsy and select `b`. -/
def jsOr (a : Option String) (b : String) : String :=
  match a with
  | some s => if s = "" then b else s
  | none => b

/-- JavaScript truthiness of an optional string: truthy exactly when present
and non-empty. -/
def jsTruthy : Option String → Bool
  | some s => s != ""
  | none => false

theorem jsOr_ne_empty (a : Option String) (b : String) (hb : b ≠ "") :
    jsOr a b ≠ "" := by
  cases a with
  | none => simpa [jsOr] using hb
  | some s =>
    by_cases hs : s = "" <;> simp [jsOr, hs, hb]

/-! ## `public/service-worker.js` -/

/-- `const CACHE = "retainai-v2";` -/
def CACHE : String := "retainai-v2"

/-- `const PRECACHE = ["/", "/index.html"];` -/
def PRECACHE : List String := ["/", "/index.html"]

/-- The claim-relevant observables of a fetch-event request:
its method, whether `new URL(req.url)` succeeds, the protocol and pathname
of the URL, whether a `range` header is present (truthy), and `req.mode`. -/
structure SWRequest where
  method : String
  urlValid : Bool
  protocol : String
  pathname : String
  hasRange : Bool
  mode : String
deriving Repr, DecidableEq

/-- What the fetch handler decides to do with a request:
return without `event.respondWith` (browser default), respond with a plain
network fetch (range requests), the SPA navigation fallback, or the
stale-while-revalidate branch for static assets. -/
inductive FetchAction where
  | noRespond
  | networkOnly
  | navigateFallback
  | staleWhileRevalidate
deriving Repr, DecidableEq

/-- JavaScript `String.prototype.startsWith`, on the character lists of the
strings (computable by the kernel, unlike `String.startsWith`). -/
def startsWithStr (s p : String) : Bool :=
  p.data.isPrefixOf s.data

/-- The guard cascade of the `fetch` event handler in
`public/service-worker.js`, in source order. -/
def fetchHandler (req : SWRequest) : FetchAction :=
  if req.method ≠ "GET" then .noRespond
  else if req.urlValid = false then .noRespond
  else if req.protocol ≠ "http:" ∧ req.protocol ≠ "https:" then .noRespond
  else if startsWithStr req.pathname "/api/" then .noRespond
  else if req.hasRange then .networkOnly
  else if req.mode = "navigate" then .navigateFallback
  else .staleWhileRevalidate

/-- The claim-relevant observables of a `Response`: `res.ok`, `res.status`,
and `res.type` (`"opaque"` for cross-origin no-cors responses). -/
structure SWResponse where
  ok : Bool
  status : Nat
  type : String
deriving Repr, DecidableEq

/-- The cache-update guard of the stale-while-revalidate branch:
`res && res.ok && res.status === 200 && res.type !== "opaque"`. -/
def shouldCachePut (res : SWResponse) : Bool :=
  res.ok && res.status == 200 && res.type != "opaque"

/-- The response served by the stale-while-revalidate branch, as a function of
the cache lookup (`cache.match(req)`) and the network outcome (`fetch(req)`;
`.error` is a rejected fetch). `return cached || net`, where `net` resolves to
the network response on success and to `cached` on network error. -/
def swrServe (cached : Option SWResponse) (net : Except Unit SWResponse) :
    Option SWResponse :=
  match cached with
  | some c => some c
  | none =>
    match net with
    | .ok r => some r
    | .error _ => none

/-- The cache entry for the request after the stale-while-revalidate branch:
`cache.put(req, res.clone())` runs exactly when `shouldCachePut`. -/
def swrCacheAfter (cached : Option SWResponse) (net : Except Unit SWResponse) :
    Option SWResponse :=
  match net with
  | .ok r => if shouldCachePut r then some r else cached
  | .error _ => cached

/-- The `activate` handler deletes `keys.filter(k => k !== CACHE)`. -/
def staleCaches (keys : List String) : List String :=
  keys.filter (fun k => k != CACHE)

/-- The caches left after activation: the keys the activate handler does not
delete. -/
def remainingCaches (keys : List String) : List String :=
  keys.filter (fun k => k == CACHE)

/-! ## `src/components/NotificationsCenter.js` — `normalize` -/

/-- The fields of a raw notification row that `normalize` reads.
`mongoId` stands for the `_id` field of the row. `none` is a missing
(`undefined`/`null`) field. -/
structure RawNotif where
  id : Option String
  mongoId : Option String
  uuid : Option String
  read : Option Bool
  subject : Option String
  message : Option String
  timestamp : Option String
  createdAt : Option String
  lead_email : Option String
  leadEmail : Option String
deriving Repr, DecidableEq

/-- A normalized notification entry as pushed by `normalize` (the fields the
claims are about; the object spread keeps further fields unchanged). -/
structure Notif where
  _id : String
  read : Bool
  subject : String
  message : String
  timestamp : String
  lead_email : String
deriving Repr, DecidableEq

/-- `n.id ?? n._id ?? n.uuid ?? `${n.timestamp || ""}|${n.subject || ""}|${idx}``
(`??` skips only missing values; the template fallback uses `||`). -/
def idOf (idx : Nat) (n : RawNotif) : String :=
  match n.id.orElse (fun _ => n.mongoId.orElse (fun _ => n.uuid)) with
  | some s => s
  | none => jsOr n.timestamp "" ++ "|" ++ jsOr n.subject "" ++ "|" ++ toString idx

/-- The entry pushed for row `n` at array index `idx`; `now` is
`new Date().toISOString()` at the time of the call. -/
def normRow (now : String) (idx : Nat) (n : RawNotif) : Notif where
  _id := idOf idx n
  read := n.read.getD false
  subject := jsOr n.subject "â€”"
  message := jsOr n.message ""
  timestamp := jsOr n.timestamp (jsOr n.createdAt now)
  lead_email := jsOr n.lead_email (jsOr n.leadEmail "")

/-- The `rows.forEach` dedupe loop of `normalize`: `seen` is the set of ids
already pushed, rows are paired with their array index, and falsy rows
(`if (!n) return`) are skipped. -/
def normalizeAux (now : String) :
    List (Nat × Option RawNotif) → List String → List Notif
  | [], _ => []
  | (_, none) :: rest, seen => normalizeAux now rest seen
  | (idx, some n) :: rest, seen =>
    if idOf idx n ∈ seen then normalizeAux now rest seen
    else normRow now idx n :: normalizeAux now rest (idOf idx n :: seen)

/-- `safeDate`: `Date.parse`, falling back to the epoch on a non-finite
result. `parse` abstracts `Date.parse` (`none` = `NaN`), the result is the
millisecond timestamp. -/
def safeDate (parse : String → Option Int) (v : String) : Int :=
  (parse v).getD 0

/-- The sort comparator `(a, b) => safeDate(b.timestamp) - safeDate(a.timestamp)`
as the (total) order "a may come before b": the comparator is nonpositive. -/
def newestFirst (parse : String → Option Int) (a b : Notif) : Bool :=
  safeDate parse b.timestamp ≤ safeDate parse a.timestamp

/-- `normalize`: dedupe by id keeping first occurrences, give defaults, then
sort newest-first (JavaScript `Array.prototype.sort` is stable, as is
`List.mergeSort`). -/
def normalize (parse : String → Option Int) (now : String)
    (rows : List (Option RawNotif)) : List Notif :=
  (normalizeAux now rows.enum []).mergeSort (newestFirst parse)

/-- Re-reading a normalized entry as a raw row (its `_id` is set, so `idOf`
returns it; used when an SSE message merges `prev` with new rows). -/
def toRaw (e : Notif) : RawNotif where
  id := none
  mongoId := some e._id
  uuid := none
  read := some e.read
  subject := some e.subject
  message := some e.message
  timestamp := some e.timestamp
  createdAt := none
  lead_email := some e.lead_email
  leadEmail := none

/-- `es.onmessage`: `setNotifications(prev => normalize([...(prev || []), ...rows]))`. -/
def sseUpdate (parse : String → Option Int) (now : String)
    (prev : List Notif) (rows : List (Option RawNotif)) : List Notif :=
  normalize parse now (prev.map (fun e => some (toRaw e)) ++ rows)

/-! ## `src/components/NotificationsCenter.js` — live-updates effect

The `useEffect` that wires SSE with a polling fallback. Timers are explicit:
each `setInterval` call allocates a fresh timer id, `clearInterval` removes
it, `pollRef` models `pollRef.current` and `sseOpen` whether an `EventSource`
is currently held in `sseRef.current`. -/

/-- State of the live-updates effect: allocated interval timers
`(id, interval ms)`, the id stored in `pollRef.current`, and whether the SSE
stream is open. -/
structure NCState where
  nextId : Nat
  timers : List (Nat × Nat)
  pollRef : Option Nat
  sseOpen : Bool
deriving Repr, DecidableEq

/-- `stopPolling`: `clearInterval(pollRef.current); pollRef.current = null`
when a poll is registered. -/
def stopPolling (s : NCState) : NCState :=
  match s.pollRef with
  | some i => { s with timers := s.timers.filter (fun t => t.1 != i), pollRef := none }
  | none => s

/-- `startPolling(interval = 20_000)`: `stopPolling()` then
`pollRef.current = setInterval(() => load(), interval)`. -/
def startPolling (interval : Nat) (s : NCState) : NCState :=
  let s1 := stopPolling s
  { s1 with
    timers := s1.timers ++ [(s1.nextId, interval)]
    pollRef := some s1.nextId
    nextId := s1.nextId + 1 }

/-- Effect setup: with `EventSource` available the SSE stream is opened and a
60-second safety poll started; otherwise 20-second polling starts at once. -/
def mount (hasEventSource : Bool) : NCState :=
  let s0 : NCState := { nextId := 0, timers := [], pollRef := none, sseOpen := false }
  if hasEventSource then startPolling 60000 { s0 with sseOpen := true }
  else startPolling 20000 s0

/-- The events that touch the timers: `es.onerror` and the effect cleanup. -/
inductive NCEvent where
  | sseError
  | cleanup
deriving Repr, DecidableEq

/-- `es.onerror`: close the stream, drop `sseRef`, `startPolling()` (20 s);
the handler is attached only while a stream is open. The cleanup closes the
stream and stops polling. -/
def step : NCEvent → NCState → NCState
  | .sseError, s =>
    if s.sseOpen then startPolling 20000 { s with sseOpen := false } else s
  | .cleanup, s => stopPolling { s with sseOpen := false }

/-- Run a sequence of events from a state. -/
def runEvents (evs : List NCEvent) (s : NCState) : NCState :=
  evs.foldl (fun st e => step e st) s

/-- The interval durations of the currently active timers. -/
def intervalsOf (s : NCState) : List Nat :=
  s.timers.map Prod.snd

/-! ## `markAsRead` — the two implementations -/

/-- The optimistic-update map of `NotificationsCenter.js`:
`ns.map(n => n._id === notif._id ? { ...n, read: true } : n)`. -/
def optimisticRead (id : String) (ns : List Notif) : List Notif :=
  ns.map (fun n => if n._id = id then { n with read := true } else n)

/-- `markAsRead` of `src/components/NotificationsCenter.js`: the final
notifications state given the target id, the primary endpoint outcome
(`.ok b` = response with `res.ok = b`, `.error` = rejected fetch) and the
fallback bulk endpoint outcome. The catch blocks never restore state: on
total failure the optimistic state is left for the next refresh to
reconcile. -/
def markAsReadNC (ns : List Notif) (id : String)
    (primary : Except Unit Bool) (fallback : Except Unit Unit) : List Notif :=
  let optimistic := optimisticRead id ns
  match primary with
  | .ok true => optimistic
  | .ok false =>
    match fallback with
    | .ok _ => optimistic
    | .error _ => optimistic
  | .error _ =>
    match fallback with
    | .ok _ => optimistic
    | .error _ => optimistic

/-- The notification shape used by `src/components/Notifications.jsx`
(`id`-keyed, with a read flag). -/
structure JNotif where
  id : String
  read : Bool
deriving Repr, DecidableEq

/-- `markAsRead` of `src/components/Notifications.jsx`: optimistic
`read: true`, and on a rejected fetch (`catch`) the revert sets the `read`
flag of the target to `false` (a non-ok response is not checked and does not revert). -/
def markAsReadJ (ns : List JNotif) (id : String)
    (outcome : Except Unit Unit) : List JNotif :=
  let optimistic := ns.map (fun n => if n.id = id then { n with read := true } else n)
  match outcome with
  | .ok _ => optimistic
  | .error _ => optimistic.map (fun n => if n.id = id then { n with read := false } else n)

/-! ## `src/components/LeadDrawer.jsx` — `persistReminders` -/

/-- `persistReminders`: from the current `(reminders, err)` state and the new
list, record `prev`, set the new list and clear the error optimistically,
run the persist step (`onUpdateLead` or `persistLeadsArray`; `.error msg`
carries the thrown `e.message`, `none` when absent), and on a throw set the
error message and roll `reminders` back to `prev`. Returns the optimistic
intermediate state and the final state. -/
def persistReminders {α : Type} (reminders : List α) (next : List α)
    (outcome : Except (Option String) Unit) :
    (List α × String) × (List α × String) :=
  let prev := reminders
  let optimistic : List α × String := (next, "")
  match outcome with
  | .ok _ => (optimistic, optimistic)
  | .error msg => (optimistic, (prev, jsOr msg "Failed to persist reminders"))

/-! ## `src/lib/api.js` — `request` -/

/-- The `error`/`message` fields a successfully parsed JSON body may carry
(absent or non-string fields are `none`). -/
structure ApiData where
  error : Option String
  message : Option String
deriving Repr, DecidableEq

/-- The value bound to `data` in `request`: `null` for an empty body, the
parsed value, or `{ raw: text }` when `JSON.parse` throws. -/
inductive ApiBody where
  | jnull
  | parsed (d : ApiData)
  | raw (text : String)
deriving Repr, DecidableEq

/-- The observables of the `fetch` response `request` reads: `res.ok`,
`res.status` and the body text. -/
structure ApiResponse where
  ok : Bool
  status : Nat
  text : String
deriving Repr, DecidableEq

/-- `data = text ? JSON.parse(text) : null`, with the `catch` producing
`{ raw: text }`; `parse` abstracts `JSON.parse` (`none` = throw). -/
def parseBody (parse : String → Option ApiData) (text : String) : ApiBody :=
  if text = "" then .jnull
  else
    match parse text with
    | some d => .parsed d
    | none => .raw text

/-- `data?.error` (missing on `null` and on `{ raw: text }`). -/
def dataError : ApiBody → Option String
  | .parsed d => d.error
  | _ => none

/-- `data?.message` (missing on `null` and on `{ raw: text }`). -/
def dataMessage : ApiBody → Option String
  | .parsed d => d.message
  | _ => none

/-- `request`: parse the body, return it when `res.ok`, otherwise throw an
`Error` with message `data?.error || data?.message || "HTTP <status>"`. -/
def request (parse : String → Option ApiData) (res : ApiResponse) :
    Except String ApiBody :=
  let data := parseBody parse res.text
  if res.ok then .ok data
  else .error (jsOr (dataError data) (jsOr (dataMessage data)
    ("HTTP " ++ toString res.status)))

/-! ## `src/components/GoogleCalendarApi.js` — `jfetch` -/

/-- One element of `data.error.errors`. -/
structure GReason where
  reason : Option String
deriving Repr, DecidableEq

/-- The `error` object of a Google API error body. -/
structure GErrorObj where
  message : Option String
  errors : Option (List GReason)
deriving Repr, DecidableEq

/-- A parsed Google API response body (the fields `jfetch` reads). -/
structure GData where
  error : Option GErrorObj
  message : Option String
deriving Repr, DecidableEq

/-- The observables of one `fetch` response inside `jfetch`: `res.ok`,
`res.status`, `res.statusText`, and the parsed JSON body (`none` when the
status is 204 or `res.json()` throws). -/
structure GResp where
  ok : Bool
  status : Nat
  statusText : String
  data : Option GData
deriving Repr, DecidableEq

/-- Occurrence of `sub` somewhere in `s` (`sub.isPrefixOf` at some suffix). -/
def containsSub (sub : List Char) : List Char → Bool
  | [] => sub.isPrefixOf []
  | c :: rest => sub.isPrefixOf (c :: rest) || containsSub sub rest

/-- JavaScript `String.prototype.includes`, on character lists. -/
def includesStr (s sub : String) : Bool :=
  containsSub sub.data s.data

/-- The rate-limit test: `res.status === 429`, or 403 with some
`data?.error?.errors` entry whose `reason` includes `"rateLimitExceeded"`. -/
def isRateLimit (r : GResp) : Bool :=
  r.status == 429 ||
    (r.status == 403 &&
      ((((r.data.bind GData.error).bind GErrorObj.errors).getD []).any
        (fun e => includesStr (jsOr e.reason "") "rateLimitExceeded")))

/-- The value of
`(data && (data.error?.message || data.error || data.message)) || "<status> <statusText>"`:
either a string, or the raw `data.error` object (truthy as an object). -/
inductive GReasonVal where
  | msg (s : String)
  | obj (e : GErrorObj)
deriving Repr, DecidableEq

/-- The `reason` computed for a non-ok response. -/
def reasonOf (r : GResp) : GReasonVal :=
  match r.data with
  | none => .msg (toString r.status ++ " " ++ r.statusText)
  | some d =>
    match d.error with
    | some e =>
      match e.message with
      | some s => if s = "" then .obj e else .msg s
      | none => .obj e
    | none => .msg (jsOr d.message (toString r.status ++ " " ++ r.statusText))

/-- The thrown `Error`: `err.status = res.status; err.data = data`. -/
structure GError where
  reason : GReasonVal
  status : Nat
  data : Option GData
deriving Repr, DecidableEq

/-- The thrown `Error` value for a non-ok response:
`err.status = res.status; err.data = data`. -/
def jfetchErr (r : GResp) : GError where
  reason := reasonOf r
  status := r.status
  data := r.data

/-- `jfetch`, as a function of the sequence of network responses: `rs k` is
the response to the `k`-th attempt and `i` the index of the current attempt.
On success it returns `data ?? {}`; on a rate-limited failure it retries with
`retries - 1` exactly when `retries > 0` (the two `retries` cases below split
the single `retries > 0 && isRateLimit` guard of the source); otherwise it
throws. -/
def jfetch (rs : Nat → GResp) : Nat → Nat → Except GError GData
  | i, 0 =>
    if (rs i).ok then .ok ((rs i).data.getD { error := none, message := none })
    else .error (jfetchErr (rs i))
  | i, n + 1 =>
    if (rs i).ok then .ok ((rs i).data.getD { error := none, message := none })
    else if isRateLimit (rs i) then jfetch rs (i + 1) n
    else .error (jfetchErr (rs i))

/-- The number of `fetch` attempts `jfetch` performs. -/
def jfetchAttempts (rs : Nat → GResp) : Nat → Nat → Nat
  | _, 0 => 1
  | i, n + 1 =>
    if (rs i).ok then 1
    else if isRateLimit (rs i) then 1 + jfetchAttempts rs (i + 1) n
    else 1

/-! ## `src/components/TokenGenerator.jsx` — `handleExchange` -/

/-- The fields `handleExchange` reads from a backend response body
(`safeJson` returns `{}` on parse failure, i.e. all fields `none`). -/
structure ExData where
  access_token : Option String
  expires_in : Option Int
  error : Option String
deriving Repr, DecidableEq

/-- A backend response to the exchange or store POST: `res.ok`,
`res.status`, and the `safeJson` body. -/
structure ExResp where
  ok : Bool
  status : Nat
  data : ExData
deriving Repr, DecidableEq

/-- The component state `handleExchange` touches. -/
structure TokState where
  longToken : String
  expiresIn : Option Int
  status : String
  error : String
deriving Repr, DecidableEq

/-- The POST request `handleExchange` sends to the exchange endpoint:
`{ short_lived_token: shortToken.trim() }`. -/
structure ExchangeRequest where
  method : String
  short_lived_token : String
deriving Repr, DecidableEq

/-- The body built for the exchange POST. -/
def exchangeRequest (shortToken : String) : ExchangeRequest where
  method := "POST"
  short_lived_token := shortToken.trim

/-- `handleExchange` final state, from the prior state and the two network
outcomes (`.error m` = rejected fetch with `e.message = m`, `none` when the
message is absent). Guarded by `canExchange`; on a non-ok response or a
missing/empty `access_token` it throws `data.error || "Exchange failed (<status>)"`,
caught by the `catch` that sets the error and clears the status. On success
the long-lived token is set to `data.access_token` and the store POST only
affects `status`/`error`. -/
def handleExchange (canExchange : Bool) (s : TokState)
    (ex : Except (Option String) ExResp)
    (store : Except (Option String) ExResp) : TokState :=
  if canExchange = false then s
  else
    match ex with
    | .error m =>
      { s with error := jsOr m "Network or server error.", status := "" }
    | .ok r =>
      if r.ok = false ∨ jsTruthy r.data.access_token = false then
        { s with
          error := jsOr r.data.error ("Exchange failed (" ++ toString r.status ++ ")")
          status := "" }
      else
        let s1 : TokState :=
          { s with
            longToken := r.data.access_token.getD ""
            expiresIn := r.data.expires_in
            status := "✅ Long-lived token generated."
            error := "" }
        match store with
        | .error m =>
          { s1 with error := jsOr m "Network or server error.", status := "" }
        | .ok sr =>
          if sr.ok = false then
            { s1 with
              status := "⚠️ Token generated, but saving failed."
              error := jsOr sr.data.error ("Store failed (" ++ toString sr.status ++ ")") }
          else { s1 with status := "✅ Token saved." }

/-! ## Theorems -/

/-- Claim C1: for a static-asset GET request (http/https URL, not under
`/api/`, no `range` header, not a navigation) the fetch handler takes the
stale-while-revalidate branch; there, a cached response is returned
immediately while the network revalidates, the cache entry is updated
exactly for ok/200/non-opaque network responses, and without a cached entry
the network response is returned, falling back to the cached value on
network error. -/
theorem C1_staleWhileRevalidate
    (req : SWRequest) (cached : Option SWResponse) (net : Except Unit SWResponse)
    (hm : req.method = "GET") (hu : req.urlValid = true)
    (hp : req.protocol = "http:" ∨ req.protocol = "https:")
    (ha : startsWithStr req.pathname "/api/" = false)
    (hr : req.hasRange = false) (hn : req.mode ≠ "navigate") :
    fetchHandler req = .staleWhileRevalidate
    ∧ (∀ c, cached = some c → swrServe cached net = some c)
    ∧ (∀ r, net = .ok r →
        swrCacheAfter cached net = (if shouldCachePut r then some r else cached))
    ∧ (swrCacheAfter cached net ≠ cached →
        ∃ r, net = .ok r ∧ r.ok = true ∧ r.status = 200 ∧ r.type ≠ "opaque"
          ∧ swrCacheAfter cached net = some r)
    ∧ (cached = none → ∀ r, net = .ok r → swrServe cached net = some r)
    ∧ (∀ u : Unit, net = .error u → swrServe cached net = cached) := by
  refine ⟨?_, ?_, ?_, ?_, ?_, ?_⟩
  · rcases hp with hp | hp <;> simp [fetchHandler, hm, hu, hp, ha, hr, hn]
  · rintro c rfl; rfl
  · rintro r rfl; rfl
  · intro hne
    cases net with
    | error u => exact absurd rfl hne
    | ok r =>
      by_cases hput : shouldCachePut r = true
      · have h3 : (r.ok = true ∧ r.status = 200) ∧ ¬ r.type = "opaque" := by
          simpa [shouldCachePut, Bool.and_eq_true] using hput
        refine ⟨r, rfl, h3.1.1, h3.1.2, h3.2, ?_⟩
        simp [swrCacheAfter, hput]
      · exact absurd (by simp [swrCacheAfter, hput]) hne
  · rintro rfl r rfl; rfl
  · rintro u rfl; cases cached <;> rfl

/-- Witness for C1 at a concrete request, cached entry and network outcome. -/
theorem C1_staleWhileRevalidate_witness :
    fetchHandler
      { method := "GET", urlValid := true, protocol := "https:"
        pathname := "/static/js/main.js", hasRange := false, mode := "cors" }
      = .staleWhileRevalidate
    ∧ swrServe (some { ok := true, status := 200, type := "basic" })
        (.ok { ok := true, status := 200, type := "basic" })
      = some { ok := true, status := 200, type := "basic" } := by
  have h := C1_staleWhileRevalidate
    { method := "GET", urlValid := true, protocol := "https:"
      pathname := "/static/js/main.js", hasRange := false, mode := "cors" }
    (some { ok := true, status := 200, type := "basic" })
    (.ok { ok := true, status := 200, type := "basic" })
    rfl rfl (Or.inr rfl) (by decide) rfl (by decide)
  exact ⟨h.1, h.2.1 _ rfl⟩

/-- Claim C8: non-GET requests, requests whose URL does not parse or is not
http/https, and `/api/` requests are returned without `event.respondWith`:
they go straight to the network and never touch the cache. -/
theorem C8_apiNeverCached (req : SWRequest)
    (h : req.method ≠ "GET" ∨ req.urlValid = false
      ∨ (req.protocol ≠ "http:" ∧ req.protocol ≠ "https:")
      ∨ startsWithStr req.pathname "/api/" = true) :
    fetchHandler req = .noRespond := by
  rcases h with h | h | h | h
  · simp [fetchHandler, h]
  · by_cases hm : req.method = "GET" <;> simp [fetchHandler, hm, h]
  · by_cases hm : req.method = "GET" <;>
      by_cases hu : req.urlValid = false <;> simp [fetchHandler, hm, hu, h]
  · by_cases hm : req.method = "GET" <;>
      by_cases hu : req.urlValid = false <;>
      by_cases hp : req.protocol ≠ "http:" ∧ req.protocol ≠ "https:" <;>
        simp [fetchHandler, hm, hu, hp, h]

/-- Witness for C8: a POST to an API path is not intercepted. -/
theorem C8_apiNeverCached_witness :
    fetchHandler
      { method := "POST", urlValid := true, protocol := "https:"
        pathname := "/api/notifications/x", hasRange := false, mode := "cors" }
      = .noRespond :=
  C8_apiNeverCached _ (Or.inl (by decide))

/-- Claim C10: on activation exactly the caches whose key differs from
`"retainai-v2"` are deleted; the `"retainai-v2"` cache (the one precaching
`"/"` and `"/index.html"`) is never deleted, and every cache that survives is
the current one. -/
theorem C10_activateDeletesStale (keys : List String) :
    (∀ k, k ∈ staleCaches keys ↔ (k ∈ keys ∧ k ≠ "retainai-v2"))
    ∧ "retainai-v2" ∉ staleCaches keys
    ∧ (∀ k, k ∈ remainingCaches keys → k = "retainai-v2")
    ∧ (∀ k, k ∈ keys → k ∉ staleCaches keys → k = "retainai-v2")
    ∧ CACHE = "retainai-v2" ∧ PRECACHE = ["/", "/index.html"] := by
  refine ⟨?_, ?_, ?_, ?_, rfl, rfl⟩
  · intro k
    simp [staleCaches, List.mem_filter, CACHE]
  · simp [staleCaches, List.mem_filter, CACHE]
  · intro k hk
    have := (List.mem_filter.mp hk).2
    simpa [CACHE] using this
  · intro k hk hnot
    by_contra hne
    exact hnot (List.mem_filter.mpr ⟨hk, by simpa [staleCaches, CACHE] using hne⟩)

/-- Witness for C10 on a concrete key list. -/
theorem C10_activateDeletesStale_witness :
    "retainai-v1" ∈ staleCaches ["retainai-v1", "retainai-v2"]
    ∧ "retainai-v2" ∉ staleCaches ["retainai-v1", "retainai-v2"] := by
  have h := C10_activateDeletesStale ["retainai-v1", "retainai-v2"]
  exact ⟨(h.1 "retainai-v1").mpr ⟨by decide, by decide⟩, h.2.1⟩

theorem jsOr_truthy (s : String) (b : String) (h : s ≠ "") :
    jsOr (some s) b = s := by
  simp [jsOr, h]

theorem jsOr_falsy (a : Option String) (b : String)
    (h : a = none ∨ a = some "") : jsOr a b = b := by
  rcases h with rfl | rfl <;> simp [jsOr]

/-- Claim C5: `request` returns the parsed JSON body exactly when the
response is ok (`null` for an empty body, `{ raw: text }` when the body is
not valid JSON) and throws exactly when the response is not ok, with message
`data.error`, else `data.message`, else `"HTTP <status>"`. -/
theorem C5_request (parse : String → Option ApiData) (res : ApiResponse) :
    (res.ok = true → request parse res = .ok (parseBody parse res.text))
    ∧ (res.ok = true → res.text = "" → request parse res = .ok .jnull)
    ∧ (res.ok = true → res.text ≠ "" → parse res.text = none →
        request parse res = .ok (.raw res.text))
    ∧ ((∃ m, request parse res = .error m) ↔ res.ok = false)
    ∧ (res.ok = false → ∀ e, dataError (parseBody parse res.text) = some e →
        e ≠ "" → request parse res = .error e)
    ∧ (res.ok = false →
        (dataError (parseBody parse res.text) = none
          ∨ dataError (parseBody parse res.text) = some "") →
        ∀ m, dataMessage (parseBody parse res.text) = some m → m ≠ "" →
        request parse res = .error m)
    ∧ (res.ok = false →
        (dataError (parseBody parse res.text) = none
          ∨ dataError (parseBody parse res.text) = some "") →
        (dataMessage (parseBody parse res.text) = none
          ∨ dataMessage (parseBody parse res.text) = some "") →
        request parse res = .error ("HTTP " ++ toString res.status)) := by
  refine ⟨?_, ?_, ?_, ?_, ?_, ?_, ?_⟩
  · intro hok; simp [request, hok]
  · intro hok ht; simp [request, hok, parseBody, ht]
  · intro hok ht hp; simp [request, hok, parseBody, ht, hp]
  · constructor
    · rintro ⟨m, hm⟩
      by_contra hok
      have hok' : res.ok = true := by
        cases h : res.ok
        · exact absurd h hok
        · rfl
      simp [request, hok'] at hm
    · intro hok
      exact ⟨jsOr (dataError (parseBody parse res.text))
        (jsOr (dataMessage (parseBody parse res.text))
          ("HTTP " ++ toString res.status)), by simp [request, hok]⟩
  · intro hok e he hne
    simp [request, hok, he, jsOr_truthy e _ hne]
  · intro hok herr m hm hne
    simp [request, hok, jsOr_falsy _ _ herr, hm, jsOr_truthy m _ hne]
  · intro hok herr hmsg
    simp [request, hok, jsOr_falsy _ _ herr, jsOr_falsy _ _ hmsg]

/-- Witness for C5: a 404 with body `{"error": "nope"}` throws `"nope"`; an
ok empty body returns `null`. -/
theorem C5_request_witness :
    request (fun _ => some { error := some "nope", message := none })
      { ok := false, status := 404, text := "\x7b\x22error\x22: \x22nope\x22\x7d" } = .error "nope"
    ∧ request (fun _ => none) { ok := true, status := 200, text := "" }
      = .ok .jnull := by
  have h1 := (C5_request (fun _ => some { error := some "nope", message := none })
    { ok := false, status := 404, text := "\x7b\x22error\x22: \x22nope\x22\x7d" }).2.2.2.2.1
  have h2 := (C5_request (fun _ => none)
    { ok := true, status := 200, text := "" }).2.1
  exact ⟨h1 rfl "nope" (by simp [parseBody, dataError]) (by decide),
    h2 rfl rfl⟩

theorem append_ne_empty_left (a b : String) (h : a ≠ "") : a ++ b ≠ "" := by
  intro he
  apply h
  have hd := congrArg String.data he
  rw [String.data_append] at hd
  rcases List.append_eq_nil.mp hd with ⟨h1, _⟩
  exact String.ext h1

/-- Claim C4: `persistReminders` records the previous list, optimistically
sets the new list and clears the error, and on a throw restores exactly the
previous list and sets a non-empty error message; on success the new list is
kept. -/
theorem C4_persistReminders {α : Type} (reminders next : List α)
    (outcome : Except (Option String) Unit) :
    (persistReminders reminders next outcome).1 = (next, "")
    ∧ (∀ u, outcome = .ok u →
        (persistReminders reminders next outcome).2 = (next, ""))
    ∧ (∀ msg, outcome = .error msg →
        (persistReminders reminders next outcome).2.1 = reminders
        ∧ (persistReminders reminders next outcome).2.2 =
            jsOr msg "Failed to persist reminders"
        ∧ (persistReminders reminders next outcome).2.2 ≠ "") := by
  refine ⟨?_, ?_, ?_⟩
  · cases outcome <;> rfl
  · rintro u rfl; rfl
  · rintro msg rfl
    exact ⟨rfl, rfl, jsOr_ne_empty _ _ (by decide)⟩

/-- Witness for C4: a failed persist with no exception message rolls back to
the previous list and sets the default error text. -/
theorem C4_persistReminders_witness :
    (persistReminders [1] [2] (Except.error (none : Option String))).2.1 = [1]
    ∧ (persistReminders [1] [2] (Except.error (none : Option String))).2.2 =
        "Failed to persist reminders"
    ∧ (persistReminders [1] [2] (Except.ok ())).2 = ([2], "") := by
  have h := (C4_persistReminders [1] [2] (Except.error none)).2.2 none rfl
  have h2 := (C4_persistReminders [1] [2] (Except.ok ())).2.1 () rfl
  exact ⟨h.1, by simpa [jsOr] using h.2.1, h2⟩

/-- Claim C7: the Instagram exchange POSTs `{ short_lived_token }` and does no
token computation client-side: on an ok response carrying `access_token` the
long-lived-token state becomes exactly that field; on a non-ok response, a
missing/empty `access_token`, or a rejected fetch, the long-lived-token state
is unchanged and a non-empty error message is set. -/
theorem C7_handleExchange (s : TokState) (shortToken : String)
    (ex store : Except (Option String) ExResp) :
    (exchangeRequest shortToken).method = "POST"
    ∧ (exchangeRequest shortToken).short_lived_token = shortToken.trim
    ∧ (∀ r tok, ex = .ok r → r.ok = true → r.data.access_token = some tok →
        tok ≠ "" → (handleExchange true s ex store).longToken = tok)
    ∧ (∀ r, ex = .ok r →
        (r.ok = false ∨ jsTruthy r.data.access_token = false) →
        (handleExchange true s ex store).longToken = s.longToken
        ∧ (handleExchange true s ex store).error ≠ "")
    ∧ (∀ m, ex = .error m →
        (handleExchange true s ex store).longToken = s.longToken
        ∧ (handleExchange true s ex store).error ≠ "") := by
  refine ⟨rfl, rfl, ?_, ?_, ?_⟩
  · rintro r tok rfl hok htok hne
    have hcond : ¬ (r.ok = false ∨ jsTruthy (some tok) = false) := by
      rintro (h | h)
      · rw [hok] at h; cases h
      · simp [jsTruthy, hne] at h
    cases store with
    | error m => simp [handleExchange, htok, hcond]
    | ok sr =>
      by_cases hsr : sr.ok = false <;> simp [handleExchange, htok, hcond, hsr]
  · rintro r rfl hbad
    have hif : handleExchange true s (.ok r) store =
        { s with
          error := jsOr r.data.error
            ("Exchange failed (" ++ toString r.status ++ ")")
          status := "" } := by
      simp [handleExchange, hbad]
    rw [hif]
    exact ⟨rfl, jsOr_ne_empty _ _
      (append_ne_empty_left _ _ (append_ne_empty_left _ _ (by decide)))⟩
  · rintro m rfl
    exact ⟨rfl, jsOr_ne_empty _ _ (by decide)⟩

/-- Witness for C7: an ok exchange response with `access_token = "LLT"` sets
the long-lived token to `"LLT"`; a 400 response leaves it unchanged. -/
theorem C7_handleExchange_witness :
    (handleExchange true
      { longToken := "", expiresIn := none, status := "", error := "" }
      (.ok { ok := true, status := 200
             data := { access_token := some "LLT", expires_in := some 5184000
                       error := none } })
      (.ok { ok := true, status := 200
             data := { access_token := none, expires_in := none, error := none } })).longToken = "LLT"
    ∧ (handleExchange true
        { longToken := "old", expiresIn := none, status := "", error := "" }
        (.ok { ok := false, status := 400
               data := { access_token := none, expires_in := none
                         error := some "bad token" } })
        (.ok { ok := true, status := 200
               data := { access_token := none, expires_in := none
                         error := none } })).longToken = "old" := by
  have h1 := (C7_handleExchange
    { longToken := "", expiresIn := none, status := "", error := "" } "tok"
    (.ok { ok := true, status := 200
           data := { access_token := some "LLT", expires_in := some 5184000
                     error := none } })
    (.ok { ok := true, status := 200
           data := { access_token := none, expires_in := none
                     error := none } })).2.2.1
  have h2 := (C7_handleExchange
    { longToken := "old", expiresIn := none, status := "", error := "" } "tok"
    (.ok { ok := false, status := 400
           data := { access_token := none, expires_in := none
                     error := some "bad token" } })
    (.ok { ok := true, status := 200
           data := { access_token := none, expires_in := none
                     error := none } })).2.2.2.1
  exact ⟨h1 _ "LLT" rfl rfl rfl (by decide), (h2 _ rfl (Or.inl rfl)).1⟩

/-- Counterexample to claim C2: in `NotificationsCenter.js`, when both the
primary and the fallback POST fail, the optimistically-set `read: true` flag
is NOT restored: the notifications state differs from its pre-call value. -/
theorem C2_counterexample :
    markAsReadNC
      [{ _id := "a", read := false, subject := "s", message := ""
         timestamp := "t", lead_email := "" }]
      "a" (Except.error ()) (Except.error ())
      ≠ [{ _id := "a", read := false, subject := "s", message := ""
           timestamp := "t", lead_email := "" }]
    ∧ (markAsReadNC
        [{ _id := "a", read := false, subject := "s", message := ""
           timestamp := "t", lead_email := "" }]
        "a" (Except.error ()) (Except.error ())).map Notif.read = [true] := by
  constructor
  · decide
  · decide

/-- Claim C2 (amended): in `NotificationsCenter.js`, `markAsRead` never rolls
back — whatever the two POST outcomes, the state keeps the optimistic
`read: true` value; in `Notifications.jsx`, `markAsRead` reverts only on a
rejected fetch, by setting the `read` flag of the target to `false` (which equals the
pre-call value exactly when the notification was unread before the call),
and keeps the optimistic value on success. -/
theorem C2_markAsRead_amended :
    (∀ (ns : List Notif) (id : String) (p : Except Unit Bool)
        (f : Except Unit Unit), markAsReadNC ns id p f = optimisticRead id ns)
    ∧ (∀ (ns : List JNotif) (id : String),
        markAsReadJ ns id (.error ()) =
          ns.map (fun n => if n.id = id then { n with read := false } else n))
    ∧ (∀ (ns : List JNotif) (id : String),
        (∀ n, n ∈ ns → n.id = id → n.read = false) →
        markAsReadJ ns id (.error ()) = ns)
    ∧ (∀ (ns : List JNotif) (id : String),
        markAsReadJ ns id (.ok ()) =
          ns.map (fun n => if n.id = id then { n with read := true } else n)) := by
  have hmapJ : ∀ (ns : List JNotif) (id : String),
      markAsReadJ ns id (.error ()) =
        ns.map (fun n => if n.id = id then { n with read := false } else n) := by
    intro ns id
    simp only [markAsReadJ, List.map_map]
    apply List.map_congr_left
    intro n _
    by_cases h : n.id = id <;> simp [Function.comp, h]
  refine ⟨?_, hmapJ, ?_, ?_⟩
  · intro ns id p f
    cases p with
    | error u => cases f <;> rfl
    | ok b => cases b <;> first
      | rfl
      | (cases f <;> rfl)
  · intro ns id hpre
    rw [hmapJ]
    conv_rhs => rw [← List.map_id ns]
    apply List.map_congr_left
    intro n hn
    by_cases h : n.id = id
    · have hr := hpre n hn h
      cases n
      simp_all
    · simp [h]
  · intro ns id; rfl

/-- Witness for the amended C2 on concrete lists and outcomes. -/
theorem C2_markAsRead_amended_witness :
    markAsReadNC
      [{ _id := "b", read := false, subject := "s", message := ""
         timestamp := "t", lead_email := "" }]
      "b" (Except.ok false) (Except.error ()) =
      optimisticRead "b"
        [{ _id := "b", read := false, subject := "s", message := ""
           timestamp := "t", lead_email := "" }]
    ∧ markAsReadJ [{ id := "b", read := false }] "b" (.error ()) =
        [{ id := "b", read := false }] := by
  have h := C2_markAsRead_amended
  exact ⟨h.1 _ "b" (Except.ok false) (Except.error ()),
    h.2.2.1 [{ id := "b", read := false }] "b" (by decide)⟩

theorem jfetchAttempts_le (rs : Nat → GResp) :
    ∀ retries i, jfetchAttempts rs i retries ≤ retries + 1 := by
  intro retries
  induction retries with
  | zero => intro i; simp [jfetchAttempts]
  | succ n ih =>
    intro i
    by_cases hok : (rs i).ok <;>
      by_cases hrl : isRateLimit (rs i) <;>
        simp [jfetchAttempts, hok, hrl]
    have := ih (i + 1)
    omega

theorem jfetch_error_spec (rs : Nat → GResp) :
    ∀ retries i e, jfetch rs i retries = .error e →
      ∃ k, i ≤ k ∧ k ≤ i + retries ∧ (rs k).ok = false
        ∧ e.status = (rs k).status ∧ e.data = (rs k).data := by
  intro retries
  induction retries with
  | zero =>
    intro i e h
    by_cases hok : (rs i).ok
    · simp [jfetch, hok] at h
    · simp [jfetch, hok] at h
      exact ⟨i, le_refl i, by omega, by simpa using hok,
        by rw [← h]; rfl, by rw [← h]; rfl⟩
  | succ n ih =>
    intro i e h
    by_cases hok : (rs i).ok
    · simp [jfetch, hok] at h
    · by_cases hrl : isRateLimit (rs i)
      · simp only [jfetch, if_neg hok, if_pos hrl] at h
        obtain ⟨k, hk1, hk2, hk3, hk4, hk5⟩ := ih (i + 1) e h
        exact ⟨k, by omega, by omega, hk3, hk4, hk5⟩
      · simp [jfetch, hok, hrl] at h
        exact ⟨i, le_refl i, by omega, by simpa using hok,
          by rw [← h]; rfl, by rw [← h]; rfl⟩

/-- Claim C6: `jfetch` terminates on every input (it is a total function and
makes at most `retries + 1` attempts); on a rate-limited response with
retries left it retries with `retries` decremented by one, and whenever it
throws, the thrown `Error` carries the status and parsed body of the
(non-ok) response it stopped on. -/
theorem C6_jfetch (rs : Nat → GResp) (i retries : Nat) :
    jfetchAttempts rs i retries ≤ retries + 1
    ∧ (∀ n, retries = n + 1 → (rs i).ok = false → isRateLimit (rs i) = true →
        jfetch rs i retries = jfetch rs (i + 1) n)
    ∧ (∀ e, jfetch rs i retries = .error e →
        ∃ k, i ≤ k ∧ k ≤ i + retries ∧ (rs k).ok = false
          ∧ e.status = (rs k).status ∧ e.data = (rs k).data) := by
  refine ⟨jfetchAttempts_le rs retries i, ?_, fun e h => jfetch_error_spec rs retries i e h⟩
  rintro n rfl hok hrl
  simp [jfetch, hok, hrl]

/-- Witness for C6: a 429 followed by an ok response consumes the one retry
and succeeds in two attempts; with no retries left the 429 is thrown with
its status and body. -/
theorem C6_jfetch_witness :
    jfetchAttempts
      (fun k => if k = 0 then
          { ok := false, status := 429, statusText := "Too Many Requests"
            data := none }
        else { ok := true, status := 200, statusText := "OK", data := none })
      0 1 ≤ 2
    ∧ jfetch
        (fun k => if k = 0 then
            { ok := false, status := 429, statusText := "Too Many Requests"
              data := none }
          else { ok := true, status := 200, statusText := "OK", data := none })
        0 1 =
      jfetch
        (fun k => if k = 0 then
            { ok := false, status := 429, statusText := "Too Many Requests"
              data := none }
          else { ok := true, status := 200, statusText := "OK", data := none })
        1 0 := by
  have h := C6_jfetch
    (fun k => if k = 0 then
        { ok := false, status := 429, statusText := "Too Many Requests"
          data := none }
      else { ok := true, status := 200, statusText := "OK", data := none })
    0 1
  exact ⟨h.1, h.2.1 0 rfl (by decide) (by decide)⟩

/-- Invariant of the live-updates effect: at most one interval timer is
active, and any active timer is the one registered in `pollRef`. -/
def NCInv (s : NCState) : Prop :=
  s.timers.length ≤ 1 ∧ ∀ t ∈ s.timers, s.pollRef = some t.1

theorem stopPolling_timers_nil (s : NCState) (hinv : NCInv s) :
    (stopPolling s).timers = [] := by
  cases hpr : s.pollRef with
  | none =>
    have : s.timers = [] := by
      cases ht : s.timers with
      | nil => rfl
      | cons t rest =>
        have := hinv.2 t (by rw [ht]; exact List.mem_cons_self t rest)
        rw [hpr] at this
        cases this
    simp [stopPolling, hpr, this]
  | some i =>
    simp only [stopPolling, hpr]
    apply List.filter_eq_nil_iff.mpr
    intro t ht
    have := hinv.2 t ht
    rw [hpr] at this
    have hti : t.1 = i := by injection this with h; exact h.symm
    simp [hti]

theorem startPolling_spec (interval : Nat) (s : NCState) (hinv : NCInv s) :
    (startPolling interval s).timers.map Prod.snd = [interval]
    ∧ NCInv (startPolling interval s)
    ∧ (startPolling interval s).sseOpen = s.sseOpen := by
  have hnil := stopPolling_timers_nil s hinv
  have hsse : (stopPolling s).sseOpen = s.sseOpen := by
    cases hpr : s.pollRef <;> simp [stopPolling, hpr]
  refine ⟨?_, ⟨?_, ?_⟩, ?_⟩
  · simp [startPolling, hnil]
  · simp [startPolling, hnil]
  · intro t ht
    simp [startPolling, hnil] at ht
    simp [startPolling, ht]
  · simp [startPolling, hsse]

theorem mount_inv (hasES : Bool) : NCInv (mount hasES) := by
  cases hasES <;> exact ⟨by decide, by decide⟩

theorem step_inv (e : NCEvent) (s : NCState) (hinv : NCInv s) :
    NCInv (step e s) := by
  cases e with
  | sseError =>
    by_cases hs : s.sseOpen
    · have hinv2 : NCInv { s with sseOpen := false } := hinv
      have := (startPolling_spec 20000 { s with sseOpen := false } hinv2).2.1
      simpa [step, hs] using this
    · simpa [step, hs] using hinv
  | cleanup =>
    have hinv2 : NCInv { s with sseOpen := false } := hinv
    have hnil := stopPolling_timers_nil { s with sseOpen := false } hinv2
    constructor
    · simp [step, hnil]
    · intro t ht
      rw [show (step .cleanup s).timers =
        (stopPolling { s with sseOpen := false }).timers from rfl, hnil] at ht
      cases ht

theorem runEvents_inv (evs : List NCEvent) :
    ∀ s, NCInv s → NCInv (runEvents evs s) := by
  induction evs with
  | nil => intro s h; exact h
  | cons e rest ih =>
    intro s h
    exact ih (step e s) (step_inv e s h)

/-- Claim C3: with `EventSource` available the effect opens the SSE stream
and starts a 60-second safety poll; without it, 20-second polling starts at
once; an SSE error closes the stream and starts 20-second polling; and since
`startPolling` always clears the previous interval first, every reachable
state has at most one active polling interval. -/
theorem C3_sseWithPollingFallback (hasES : Bool) (evs : List NCEvent) :
    ((mount true).sseOpen = true ∧ intervalsOf (mount true) = [60000])
    ∧ ((mount false).sseOpen = false ∧ intervalsOf (mount false) = [20000])
    ∧ (runEvents evs (mount hasES)).timers.length ≤ 1
    ∧ ((runEvents evs (mount hasES)).sseOpen = true →
        (step .sseError (runEvents evs (mount hasES))).sseOpen = false
        ∧ intervalsOf (step .sseError (runEvents evs (mount hasES))) = [20000]) := by
  have hinv := runEvents_inv evs (mount hasES) (mount_inv hasES)
  refine ⟨⟨by decide, by decide⟩, ⟨by decide, by decide⟩, hinv.1, ?_⟩
  intro hsse
  have hinv2 : NCInv { runEvents evs (mount hasES) with sseOpen := false } := hinv
  have hsp := startPolling_spec 20000
    { runEvents evs (mount hasES) with sseOpen := false } hinv2
  refine ⟨?_, ?_⟩
  · simpa [step, hsse] using hsp.2.2
  · simpa [step, hsse, intervalsOf] using hsp.1

/-- Witness for C3: right after mounting with SSE available, an SSE error
closes the stream and leaves exactly one 20-second poll. -/
theorem C3_sseWithPollingFallback_witness :
    (step .sseError (runEvents [] (mount true))).sseOpen = false
    ∧ intervalsOf (step .sseError (runEvents [] (mount true))) = [20000] :=
  (C3_sseWithPollingFallback true []).2.2.2 (by decide)

theorem normRow_id (now : String) (idx : Nat) (n : RawNotif) :
    (normRow now idx n)._id = idOf idx n := rfl

theorem normalizeAux_spec (now : String) :
    ∀ (l : List (Nat × Option RawNotif)) (seen : List String),
      List.Pairwise (fun a b : Notif => a._id ≠ b._id) (normalizeAux now l seen)
      ∧ ∀ e ∈ normalizeAux now l seen, e._id ∉ seen := by
  intro l
  induction l with
  | nil => intro seen; exact ⟨List.Pairwise.nil, by simp [normalizeAux]⟩
  | cons p rest ih =>
    intro seen
    obtain ⟨idx, o⟩ := p
    cases o with
    | none => simpa [normalizeAux] using ih seen
    | some n =>
      by_cases hseen : idOf idx n ∈ seen
      · simpa [normalizeAux, hseen] using ih seen
      · simp only [normalizeAux, if_neg hseen]
        obtain ⟨hpw, hmem⟩ := ih (idOf idx n :: seen)
        refine ⟨List.pairwise_cons.mpr ⟨?_, hpw⟩, ?_⟩
        · intro b hb
          have hnb := hmem b hb
          rw [normRow_id]
          intro heq
          exact hnb (heq ▸ List.mem_cons_self _ _)
        · intro e he
          rcases List.mem_cons.mp he with rfl | he2
          · rw [normRow_id]; exact hseen
          · intro hc
            exact hmem e he2 (List.mem_cons_of_mem _ hc)

theorem normalizeAux_mem (now : String) :
    ∀ (l : List (Nat × Option RawNotif)) (seen : List String) (e : Notif),
      e ∈ normalizeAux now l seen →
      ∃ idx n, (idx, some n) ∈ l ∧ e = normRow now idx n := by
  intro l
  induction l with
  | nil => intro seen e he; simp [normalizeAux] at he
  | cons p rest ih =>
    intro seen e he
    obtain ⟨idx, o⟩ := p
    cases o with
    | none =>
      obtain ⟨j, m, hm, hv⟩ := ih seen e (by simpa [normalizeAux] using he)
      exact ⟨j, m, List.mem_cons_of_mem _ hm, hv⟩
    | some n =>
      by_cases hseen : idOf idx n ∈ seen
      · obtain ⟨j, m, hm, hv⟩ := ih seen e (by simpa [normalizeAux, hseen] using he)
        exact ⟨j, m, List.mem_cons_of_mem _ hm, hv⟩
      · rw [show normalizeAux now ((idx, some n) :: rest) seen =
          normRow now idx n :: normalizeAux now rest (idOf idx n :: seen) by
            simp [normalizeAux, hseen]] at he
        rcases List.mem_cons.mp he with rfl | he2
        · exact ⟨idx, n, List.mem_cons_self _ _, rfl⟩
        · obtain ⟨j, m, hm, hv⟩ := ih (idOf idx n :: seen) e he2
          exact ⟨j, m, List.mem_cons_of_mem _ hm, hv⟩

theorem normalizeAux_first (now : String) :
    ∀ (l1 : List (Nat × Option RawNotif)) (idx : Nat) (n : RawNotif)
      (l2 : List (Nat × Option RawNotif)) (seen : List String),
      idOf idx n ∉ seen →
      (∀ q ∈ l1, ∀ m : RawNotif, q.2 = some m → idOf q.1 m ≠ idOf idx n) →
      normRow now idx n ∈ normalizeAux now (l1 ++ (idx, some n) :: l2) seen := by
  intro l1
  induction l1 with
  | nil =>
    intro idx n l2 seen hns _
    rw [List.nil_append,
      show normalizeAux now ((idx, some n) :: l2) seen =
        normRow now idx n :: normalizeAux now l2 (idOf idx n :: seen) by
          simp [normalizeAux, hns]]
    exact List.mem_cons_self _ _
  | cons q rest ih =>
    intro idx n l2 seen hns hfirst
    obtain ⟨j, o⟩ := q
    cases o with
    | none =>
      rw [List.cons_append,
        show normalizeAux now ((j, none) :: (rest ++ (idx, some n) :: l2)) seen =
          normalizeAux now (rest ++ (idx, some n) :: l2) seen from rfl]
      exact ih idx n l2 seen hns
        (fun q hq => hfirst q (List.mem_cons_of_mem _ hq))
    | some m =>
      by_cases hseen : idOf j m ∈ seen
      · rw [List.cons_append,
          show normalizeAux now ((j, some m) :: (rest ++ (idx, some n) :: l2)) seen =
            normalizeAux now (rest ++ (idx, some n) :: l2) seen by
              simp [normalizeAux, hseen]]
        exact ih idx n l2 seen hns
          (fun q hq => hfirst q (List.mem_cons_of_mem _ hq))
      · rw [List.cons_append,
          show normalizeAux now ((j, some m) :: (rest ++ (idx, some n) :: l2)) seen =
            normRow now j m ::
              normalizeAux now (rest ++ (idx, some n) :: l2) (idOf j m :: seen) by
                simp [normalizeAux, hseen]]
        apply List.mem_cons_of_mem
        have hne : idOf j m ≠ idOf idx n :=
          hfirst (j, some m) (List.mem_cons_self _ _) m rfl
        refine ih idx n l2 (idOf j m :: seen) ?_
          (fun q hq => hfirst q (List.mem_cons_of_mem _ hq))
        intro hc
        rcases List.mem_cons.mp hc with heq | hc2
        · exact hne heq.symm
        · exact hns hc2

theorem newestFirst_trans (parse : String → Option Int) (a b c : Notif)
    (hab : newestFirst parse a b = true) (hbc : newestFirst parse b c = true) :
    newestFirst parse a c = true := by
  simp only [newestFirst, decide_eq_true_eq] at hab hbc ⊢
  omega

theorem newestFirst_total (parse : String → Option Int) (a b : Notif) :
    (newestFirst parse a b || newestFirst parse b a) = true := by
  simp only [newestFirst, Bool.or_eq_true, decide_eq_true_eq]
  omega

/-- Claim C9: every list produced by `normalize` (used by both `load` and the
SSE `onmessage` merge) has pairwise-distinct `_id`s (deduplication keeps the
first occurrence of each id), is sorted newest-first (non-increasing
`safeDate` of `timestamp`), and each entry is the `normRow` normal form of
some input row, i.e. carries the defaults for `read`, `subject`, `message`,
`timestamp` and `lead_email`. -/
theorem C9_normalize (parse : String → Option Int) (now : String)
    (rows : List (Option RawNotif)) :
    List.Pairwise (fun a b : Notif => a._id ≠ b._id) (normalize parse now rows)
    ∧ List.Pairwise (fun a b : Notif =>
        safeDate parse b.timestamp ≤ safeDate parse a.timestamp)
        (normalize parse now rows)
    ∧ (∀ e ∈ normalize parse now rows,
        ∃ idx n, (idx, some n) ∈ rows.enum ∧ e = normRow now idx n)
    ∧ (∀ (l1 : List (Nat × Option RawNotif)) (idx : Nat) (n : RawNotif) l2,
        rows.enum = l1 ++ (idx, some n) :: l2 →
        (∀ q ∈ l1, ∀ m : RawNotif, q.2 = some m → idOf q.1 m ≠ idOf idx n) →
        normRow now idx n ∈ normalize parse now rows) := by
  have hperm := List.mergeSort_perm (normalizeAux now rows.enum []) (newestFirst parse)
  refine ⟨?_, ?_, ?_, ?_⟩
  · exact (List.Perm.pairwise_iff (fun h => Ne.symm h) hperm).mpr
      (normalizeAux_spec now rows.enum []).1
  · have hs := @List.sorted_mergeSort Notif (newestFirst parse)
      (fun a b c => newestFirst_trans parse a b c)
      (fun a b => newestFirst_total parse a b)
      (normalizeAux now rows.enum [])
    exact hs.imp (fun h => by
      simpa [newestFirst, decide_eq_true_eq] using h)
  · intro e he
    exact normalizeAux_mem now rows.enum [] e (hperm.mem_iff.mp he)
  · intro l1 idx n l2 hsplit hfirst
    apply hperm.mem_iff.mpr
    rw [hsplit]
    exact normalizeAux_first now l1 idx n l2 [] (by simp) hfirst

/-- Witness for C9 on a concrete row list with a duplicate id. -/
theorem C9_normalize_witness :
    normRow "2024-01-01T00:00:00Z" 0
        { id := some "a", mongoId := none, uuid := none, read := none
          subject := none, message := none, timestamp := none
          createdAt := none, lead_email := none, leadEmail := none }
      ∈ normalize (fun _ => none) "2024-01-01T00:00:00Z"
        [some { id := some "a", mongoId := none, uuid := none, read := none
                subject := none, message := none, timestamp := none
                createdAt := none, lead_email := none, leadEmail := none },
         some { id := some "a", mongoId := none, uuid := none, read := some true
                subject := some "dup", message := none, timestamp := none
                createdAt := none, lead_email := none, leadEmail := none }] := by
  have h := (C9_normalize (fun _ => none) "2024-01-01T00:00:00Z"
    [some { id := some "a", mongoId := none, uuid := none, read := none
            subject := none, message := none, timestamp := none
            createdAt := none, lead_email := none, leadEmail := none },
     some { id := some "a", mongoId := none, uuid := none, read := some true
            subject := some "dup", message := none, timestamp := none
            createdAt := none, lead_email := none, leadEmail := none }]).2.2.2
  exact h []
    0
    { id := some "a", mongoId := none, uuid := none, read := none
      subject := none, message := none, timestamp := none
      createdAt := none, lead_email := none, leadEmail := none }
    [(1, some { id := some "a", mongoId := none, uuid := none, read := some true
                subject := some "dup", message := none, timestamp := none
                createdAt := none, lead_email := none, leadEmail := none })]
    (by simp [List.enum]) (by simp)

end RetainAI
